import Mathlib

/-!
Shallow embedding of the numerical core of the PlanetScope landslide-tracking
repository (file postprocessing_functions.py): velocity/bearing computation
(calc_velocity), region statistics (offset_stats_pixel, offset_stats_aoi),
the temporal-baseline filter of get_stats_in_aoi, and raster stacking
(stack_rasters), together with theorems settling the specification claims.

Modelling conventions:
* Raster pixel values are `F := Option ℝ`.  `none` models any non-finite
  IEEE value (NaN or ±inf); `some x` models the finite float value, with
  exact real arithmetic in place of rounding.
* Arithmetic on `F` propagates `none` the way numpy propagates NaN; a
  division whose divisor is 0 yields a non-finite IEEE result (±inf when the
  numerator is nonzero, NaN for 0/0), modelled uniformly as `none`.
* A raster band is a `Grid := List (List F)` in row-major order.
* numpy / scipy library routines used by the source (nanmedian, nanmean,
  nanstd, nanpercentile, np.ma reductions, scipy circmean/circstd with the
  default low = 0, high = 2π) are embedded from their documented semantics.
-/

noncomputable section
open Classical

/-- Pixel value: `none` models a non-finite IEEE float (NaN or ±inf). -/
abbrev F := Option ℝ

/-- Raster band in row-major order. -/
abbrev Grid := List (List F)

/-- Float addition; any non-finite operand gives a non-finite result. -/
def fadd : F → F → F
  | some a, some b => some (a + b)
  | _, _ => none

/-- Float subtraction. -/
def fsub : F → F → F
  | some a, some b => some (a - b)
  | _, _ => none

/-- Float multiplication. -/
def fmul : F → F → F
  | some a, some b => some (a * b)
  | _, _ => none

/-- Float division.  Division by zero yields a non-finite IEEE value
(±inf for a nonzero numerator, NaN for 0/0), modelled as `none`. -/
def fdiv : F → F → F
  | some a, some b => if b = 0 then none else some (a / b)
  | _, _ => none

/-- Float negation (numpy `x * -1`). -/
def fneg : F → F
  | some a => some (-a)
  | none => none

/-- Float absolute value (numpy `abs`). -/
def fabs : F → F
  | some a => some |a|
  | none => none

/-- numpy `sqrt`: NaN on negative input, NaN-propagating. -/
def fsqrt : F → F
  | some a => if a < 0 then none else some (Real.sqrt a)
  | none => none

/-- numpy `arccos`: NaN outside [-1, 1], NaN-propagating. -/
def farccos : F → F
  | some a => if a < -1 ∨ 1 < a then none else some (Real.arccos a)
  | none => none

/-- The numpy test `x < 0` on a float: False on NaN. -/
def isNeg : F → Prop
  | some a => a < 0
  | none => False

/-- numpy `rad2deg`. -/
def rad2deg (x : F) : F := fmul x (some (180 / Real.pi))

/-- numpy `deg2rad`. -/
def deg2rad (x : F) : F := fmul x (some (Real.pi / 180))

/-- Map a pixel function over a band. -/
def gridMap (f : F → F) (g : Grid) : Grid := g.map (List.map f)

/-- Combine two bands pixelwise (numpy elementwise broadcasting on
equal-shape arrays). -/
def gridZip (f : F → F → F) (a b : Grid) : Grid :=
  List.zipWith (List.zipWith f) a b

/-- The finite values of a sample; numpy's NaN-aware routines and masked
reductions operate on exactly these. -/
def validVals (l : List F) : List ℝ := l.filterMap id

/-- numpy `nanmean`: mean of the non-NaN values, NaN when none remain. -/
def nanmean (l : List F) : F :=
  if (validVals l).length = 0 then none
  else some ((validVals l).sum / (validVals l).length)

/-- numpy `nanstd` (population standard deviation of the non-NaN values). -/
def nanstd (l : List F) : F :=
  if (validVals l).length = 0 then none
  else
    let xs := validVals l
    let m := xs.sum / xs.length
    some (Real.sqrt ((xs.map (fun x => (x - m) ^ 2)).sum / xs.length))

/-- The non-NaN values in ascending order. -/
def sortedVals (l : List F) : List ℝ :=
  (validVals l).mergeSort (fun a b => decide (a ≤ b))

/-- numpy `nanmedian`: middle element (or mean of the two middle elements)
of the sorted non-NaN values, NaN when none remain. -/
def nanmedian (l : List F) : F :=
  let s := sortedVals l
  if s.length = 0 then none
  else if s.length % 2 = 1 then some (s.getD (s.length / 2) 0)
  else some ((s.getD (s.length / 2 - 1) 0 + s.getD (s.length / 2) 0) / 2)

/-- numpy `nanpercentile` with the default linear interpolation. -/
def nanpercentile (l : List F) (q : ℝ) : F :=
  let s := sortedVals l
  if s.length = 0 then none
  else
    let pos := q / 100 * (s.length - 1 : ℕ)
    let i := (⌊pos⌋).toNat
    some (s.getD i 0 + (pos - i) * (s.getD (i + 1) (s.getD i 0) - s.getD i 0))

/-- The no-data sentinel conversion of a single pixel: the source statement
`r[r == -9999] = np.nan` turns exactly the sentinel pixels into NaN. -/
def sentinelPixel (v : F) : F := if v = some (-9999) then none else v

/-- Sentinel-to-NaN conversion of a whole band (postprocessing_functions.py
lines 145 and 164); the source performs it in place on the caller's array. -/
def sentinelToNan (r : Grid) : Grid := gridMap sentinelPixel r

/-- Unit conversion `((r * resolution) / dt) * 365` shared by the raw-offset
statistics path (lines 151 and 171) and the stacking loop (line 445). -/
def annualize (resolution dtDays : ℝ) (x : F) : F :=
  fmul (fdiv (fmul x (some resolution)) (some dtDays)) (some 365)

/-- Python slice index normalisation for `l[a:b]` with step 1: negative
indices count from the end and indices are clamped into range. -/
def pyIndex (n : ℕ) (i : ℤ) : ℕ :=
  if i < 0 then (n + i).toNat else min i.toNat n

/-- Python list slice `l[a:b]`. -/
def pySlice {α : Type} (l : List α) (a b : ℤ) : List α :=
  List.drop (pyIndex l.length a) (List.take (pyIndex l.length b) l)

/-- The pixel-neighbourhood sample
`r[ycoord-pad : ycoord+pad+1, xcoord-pad : xcoord+pad+1]` (line 153). -/
def pixel_sample (r : Grid) (xcoord ycoord pad : ℤ) : Grid :=
  (pySlice r (ycoord - pad) (ycoord + pad + 1)).map
    (fun row => pySlice row (xcoord - pad) (xcoord + pad + 1))

/-- Boolean-mask selection `r[mask == 1]` (line 174), row-major.  numpy
requires identical shapes here; the shape check lives in the caller. -/
def aoi_sample (r mask : Grid) : List F :=
  (List.zipWith
    (fun rrow mrow =>
      (List.zip rrow mrow).filterMap
        (fun p => if p.2 = some 1 then some p.1 else none))
    r mask).flatten

/-- Shape of a band, as the list of row lengths. -/
def gridShape (g : Grid) : List ℕ := g.map List.length

/-- offset_stats_pixel (postprocessing_functions.py lines 144-161).
Returns the caller's buffer after the call (the sentinel conversion on
line 145 happens in place) together with the returned statistics:
`none` models the bare `return` of the missing-argument branch, otherwise
the returned tuple as a list. -/
def offset_stats_pixel (r : Grid) (xcoord ycoord pad : ℤ) (resolution : Option ℝ)
    (dt : Option ℤ) (take_velocity : Bool) : Grid × Option (List F) :=
  let r1 := sentinelToNan r
  if take_velocity = false ∧ (dt = none ∨ resolution = none) then (r1, none)
  else
    let r2 := if take_velocity = false
      then gridMap (annualize (resolution.getD 0) ((dt.getD 0 : ℤ) : ℝ)) r1
      else r1
    let sample := (pixel_sample r2 xcoord ycoord pad).flatten
    (r1, some [nanmean sample, nanstd sample, nanmedian sample,
               nanpercentile sample 25, nanpercentile sample 75])

/-- offset_stats_aoi (postprocessing_functions.py lines 163-184).
When the raster and mask shapes differ, `r[mask == 1]` raises IndexError,
which the source catches, printing a message and returning the 4-tuple
`np.nan, np.nan, np.nan, np.nan` (line 177); the success path returns the
5-tuple mean, std, median, p25, p75. -/
def offset_stats_aoi (r mask : Grid) (resolution : Option ℝ) (dt : Option ℤ)
    (take_velocity : Bool) : Grid × Option (List F) :=
  let r1 := sentinelToNan r
  if take_velocity = false ∧ (dt = none ∨ resolution = none) then (r1, none)
  else
    let r2 := if take_velocity = false
      then gridMap (annualize (resolution.getD 0) ((dt.getD 0 : ℤ) : ℝ)) r1
      else r1
    if gridShape r2 = gridShape mask then
      let sample := aoi_sample r2 mask
      (r1, some [nanmean sample, nanstd sample, nanmedian sample,
                 nanpercentile sample 25, nanpercentile sample 75])
    else (r1, some [none, none, none, none])

/-- A match record as used by the temporal filter of get_stats_in_aoi:
its temporal baseline in whole days (`df.dt`, sign included). -/
structure MatchRec where
  dtDays : ℤ
deriving DecidableEq

/-- The upper-time-limit filter of get_stats_in_aoi (lines 246-248):
`df = df[df.dt <= datetime.timedelta(days=max_dt)]`, a signed comparison. -/
def get_stats_filter_dt (df : List MatchRec) (max_dt : Option ℤ) : List MatchRec :=
  match max_dt with
  | none => df
  | some m => df.filter (fun row => decide (row.dtDays ≤ m))

/-- An offset raster as read by calc_velocity: band 1 = x offset, band 2 =
y offset, optional band 3 = validity mask, and the metadata resolution
`meta["transform"][0]`. -/
structure OffsetRaster where
  dx : Grid
  dy : Grid
  valid : Option Grid
  res : ℝ

/-- Resolution used by calc_velocity: the explicit override when given,
otherwise the raster metadata resolution (lines 41-44). -/
def effective_res (fixed_res : Option ℝ) (metaRes : ℝ) : ℝ :=
  match fixed_res with
  | none => metaRes
  | some fr => fr

/-- Validity masking `dx[valid == 0] = np.nan` (lines 52-54): a pixel whose
validity-band value equals 0 becomes NaN. -/
def maskZeroPixel (v x : F) : F := if v = some 0 then none else x

/-- NaN-aware median of a whole band (numpy `nanmedian` over the array). -/
def grid_nanmedian (g : Grid) : F := nanmedian g.flatten

/-- Bearing of one offset vector with respect to north (lines 73-87):
`north = (0, 1)` has unit norm, the offset vector is normalised by
`np.linalg.norm` along the band axis, the angle comes from the arccos of
the `np.tensordot` dot product in degrees, and 360° minus that angle is
taken wherever the x component is negative. -/
def dirPixel (a b : F) : F :=
  let n := fsqrt (fadd (fmul a a) (fmul b b))
  let ux := fdiv a n
  let uy := fdiv b n
  let dot := fadd (fmul (some 0) ux) (fmul (some 1) uy)
  let d := rad2deg (farccos dot)
  let sub : ℝ := if isNeg a then 360 else 0
  fabs (fsub (some sub) d)

/-- calc_velocity (postprocessing_functions.py lines 19-89): velocity
magnitude in ground units per year and bearing in degrees from north. -/
def calc_velocity (r : OffsetRaster) (dtDays : ℤ) (fixed_res : Option ℝ)
    (medShift : Bool) : Grid × Grid :=
  let res := effective_res fixed_res r.res
  let dx := r.dx
  let dy := r.dy
  let dx := match r.valid with
    | some v => gridZip maskZeroPixel v dx
    | none => dx
  let dy := match r.valid with
    | some v => gridZip maskZeroPixel v dy
    | none => dy
  let dx := if dtDays < 0 then gridMap fneg dx else dx
  let dy := if dtDays < 0 then gridMap fneg dy else dy
  let dx := if medShift then gridMap (fun x => fsub x (grid_nanmedian dx)) dx else dx
  let dy := if medShift then gridMap (fun x => fsub x (grid_nanmedian dy)) dy else dy
  let v := gridZip (fun a b => fsqrt (fadd (fmul a a) (fmul b b))) dx dy
  let v := gridMap (fun x => fmul x (some res)) v
  let v := gridMap (fun x => fmul (fdiv x (some |(dtDays : ℝ)|)) (some 365)) v
  let direction := gridZip dirPixel dx dy
  (v, direction)

/-- Every pixel of a band satisfies a predicate. -/
abbrev gridAll (P : F → Prop) (g : Grid) : Prop := ∀ row ∈ g, ∀ v ∈ row, P v

/-- Pixel value of a band at row i, column j (`none` out of range). -/
def cellAt (g : Grid) (i j : ℕ) : F := (g.getD i []).getD j none

/-- The pixel values contributed at (i, j) by a stack of bands. -/
def stackCell (gs : List Grid) (i j : ℕ) : List F := gs.map (fun g => cellAt g i j)

/-- Reduce a stack of same-shape bands pixelwise along axis 0; the output
shape is the first band's shape, an empty stack reduces to the numpy 0-d
non-finite scalar, modelled as the empty band. -/
def gridStack (op : List F → F) (gs : List Grid) : Grid :=
  match gs with
  | [] => []
  | g :: _ =>
    (List.range g.length).map
      (fun i => (List.range ((g.getD i []).length)).map
        (fun j => op (stackCell gs i j)))

/-- np.ma.average along axis 0 at one pixel: mean of the values that are
not masked as invalid. -/
def ma_average_cell (l : List F) : F := nanmean l

/-- np.ma.std along axis 0 at one pixel. -/
def ma_std_cell (l : List F) : F := nanstd l

/-- np.ma.masked_invalid: masks the non-finite values, which `none`
already models, so the band is unchanged. -/
def ma_masked_invalid (g : Grid) : Grid := g

/-- numpy `arctan2`. -/
def arctan2 (y x : ℝ) : ℝ :=
  if 0 < x then Real.arctan (y / x)
  else if x < 0 then
    (if 0 ≤ y then Real.arctan (y / x) + Real.pi else Real.arctan (y / x) - Real.pi)
  else if 0 < y then Real.pi / 2
  else if y < 0 then -(Real.pi / 2)
  else 0

/-- scipy circmean at one pixel with the defaults low = 0, high = 2π and
nan_policy = omit: angle of the summed unit vectors, wrapped into [0, 2π);
NaN when no finite sample remains. -/
def circmean_cell (l : List F) : F :=
  let xs := validVals l
  if xs.length = 0 then none
  else
    let s := (xs.map Real.sin).sum
    let c := (xs.map Real.cos).sum
    let res := arctan2 s c
    some (if res < 0 then res + 2 * Real.pi else res)

/-- scipy circstd at one pixel with nan_policy = omit:
`sqrt(-2 ln R)` for the mean resultant length R. -/
def circstd_cell (l : List F) : F :=
  let xs := validVals l
  if xs.length = 0 then none
  else
    let s := (xs.map Real.sin).sum / xs.length
    let c := (xs.map Real.cos).sum / xs.length
    some (Real.sqrt (-2 * Real.log (Real.sqrt (s ^ 2 + c ^ 2))))

/-- Result of stack_rasters: whether the save loop (lines 455-462) found an
existing reference file and wrote the composite, and the two composite
bands.  The source then returns the composite path unconditionally
(line 463); returning a `StackRes` value models that normal return. -/
structure StackRes where
  written : Bool
  average_vals : Grid
  std_vals : Grid

/-- One match row as seen by the velocity/direction branches of
stack_rasters: whether the derived velocity file exists, and its two bands
(magnitude, bearing). -/
structure VelRecord where
  fileExists : Bool
  band1 : Grid
  band2 : Grid

/-- stack_rasters with what = velocity (lines 397-400, 448-463): stack the
first bands of the existing velocity files with np.ma reductions.  `some`
models the unconditional normal return of the composite path. -/
def stack_rasters_velocity (rs : List VelRecord) : Option StackRes :=
  let array_list := (rs.filter (fun r => r.fileExists)).map
    (fun r => ma_masked_invalid r.band1)
  some ⟨rs.any (fun r => r.fileExists),
        gridStack ma_average_cell array_list,
        gridStack ma_std_cell array_list⟩

/-- stack_rasters with what = direction (lines 402-404, 451-463): convert
each bearing band to radians, reduce with circmean/circstd, convert back
to degrees. -/
def stack_rasters_direction (rs : List VelRecord) : Option StackRes :=
  let array_list := (rs.filter (fun r => r.fileExists)).map
    (fun r => gridMap deg2rad r.band2)
  some ⟨rs.any (fun r => r.fileExists),
        gridMap rad2deg (gridStack circmean_cell array_list),
        gridMap rad2deg (gridStack circstd_cell array_list)⟩

/-- One match row as seen by the dx/dy branch of stack_rasters: whether the
disparity file exists, its bands (band 3 present only for 3-band files),
its temporal baseline in days and its resolution. -/
structure DispRecord where
  fileExists : Bool
  band1 : Grid
  band2 : Grid
  band3 : Option Grid
  dtDays : ℤ
  res : ℝ

/-- Band count of a disparity file (`meta["count"]`, 2 or 3). -/
def bands_count (r : DispRecord) : ℕ :=
  match r.band3 with
  | some _ => 3
  | none => 2

/-- `np.where(mask == 1, a, np.nan)` (line 435). -/
def np_where_eq_one (mask a : Grid) : Grid :=
  gridZip (fun m x => if m = some 1 then x else none) mask a

/-- Body of the per-file loop of the dx/dy branch of stack_rasters
(lines 429-445), translated statement by statement.  Line 437 assigns
`masked = array_list[i]` unconditionally, directly after the 3-band case
computed the masked array on line 435, so the value of the first binding
is discarded. -/
def stack_loop_body (a : Grid) (bands : ℕ) (mask : Grid) (resolution dtDays : ℝ)
    (medShift : Bool) : Grid :=
  let masked := if bands = 3 then np_where_eq_one mask a else a
  let masked := a
  let masked := if medShift
    then gridMap (fun x => fsub x (grid_nanmedian masked)) masked
    else masked
  gridMap (annualize resolution dtDays) masked

/-- stack_rasters with what = dx (lines 406-463): per-file masking, optional
median shift and unit conversion via `stack_loop_body`, then np.ma
reductions.  The parallel lists dt, resolution, bands and mask_list mirror
the source comprehensions, mask_list collecting only the 3-band files. -/
def stack_rasters_dx (rs : List DispRecord) (medShift : Bool) : Option StackRes :=
  let present := rs.filter (fun r => r.fileExists)
  let array_list := present.map (fun r => r.band1)
  let dt := present.map (fun r => r.dtDays)
  let resolution := present.map (fun r => r.res)
  let bands := present.map (fun r => bands_count r)
  let mask_list := (present.filter (fun r => decide (bands_count r = 3))).map
    (fun r => r.band3.getD [])
  let array_list := (List.range dt.length).map
    (fun i => stack_loop_body (array_list.getD i []) (bands.getD i 0)
      (mask_list.getD i []) (resolution.getD i 0) ((dt.getD i 0 : ℤ) : ℝ) medShift)
  some ⟨rs.any (fun r => r.fileExists),
        gridStack ma_average_cell array_list,
        gridStack ma_std_cell array_list⟩

/-- stack_rasters with what = dy: identical to the dx branch on band 2. -/
def stack_rasters_dy (rs : List DispRecord) (medShift : Bool) : Option StackRes :=
  let present := rs.filter (fun r => r.fileExists)
  let array_list := present.map (fun r => r.band2)
  let dt := present.map (fun r => r.dtDays)
  let resolution := present.map (fun r => r.res)
  let bands := present.map (fun r => bands_count r)
  let mask_list := (present.filter (fun r => decide (bands_count r = 3))).map
    (fun r => r.band3.getD [])
  let array_list := (List.range dt.length).map
    (fun i => stack_loop_body (array_list.getD i []) (bands.getD i 0)
      (mask_list.getD i []) (resolution.getD i 0) ((dt.getD i 0 : ℤ) : ℝ) medShift)
  some ⟨rs.any (fun r => r.fileExists),
        gridStack ma_average_cell array_list,
        gridStack ma_std_cell array_list⟩

/-! Helper lemmas about the embedding. -/

theorem fmul_some_some (a b : ℝ) : fmul (some a) (some b) = some (a * b) := rfl

theorem fadd_some_some (a b : ℝ) : fadd (some a) (some b) = some (a + b) := rfl

theorem fsub_some_some (a b : ℝ) : fsub (some a) (some b) = some (a - b) := rfl

theorem fdiv_some_some (a b : ℝ) (h : b ≠ 0) :
    fdiv (some a) (some b) = some (a / b) := by
  simp [fdiv, h]

theorem fsqrt_some (a : ℝ) (h : 0 ≤ a) : fsqrt (some a) = some (Real.sqrt a) := by
  simp [fsqrt, not_lt.2 h]

theorem exists_of_mem_zipWith {α β γ : Type} {f : α → β → γ} :
    ∀ {l1 : List α} {l2 : List β} {c : γ},
      c ∈ List.zipWith f l1 l2 → ∃ a ∈ l1, ∃ b ∈ l2, c = f a b
  | [], _, _ => by simp
  | _ :: _, [], _ => by simp
  | a :: as, b :: bs, c => by
    intro h
    rcases List.mem_cons.1 h with h | h
    · exact ⟨a, List.mem_cons_self a as, b, List.mem_cons_self b bs, h⟩
    · obtain ⟨x, hx, y, hy, hc⟩ := exists_of_mem_zipWith h
      exact ⟨x, List.mem_cons_of_mem a hx, y, List.mem_cons_of_mem b hy, hc⟩

theorem exists_of_mem_gridMap {f : F → F} {g : Grid} {row : List F} {v : F}
    (hrow : row ∈ gridMap f g) (hv : v ∈ row) :
    ∃ w, (∃ r0 ∈ g, w ∈ r0) ∧ v = f w := by
  obtain ⟨r0, hr0, hmap⟩ := List.mem_map.1 hrow
  subst hmap
  obtain ⟨w, hw, hfw⟩ := List.mem_map.1 hv
  exact ⟨w, ⟨r0, hr0, hw⟩, hfw.symm⟩

theorem exists_of_mem_gridZip {f : F → F → F} {a b : Grid} {row : List F} {v : F}
    (hrow : row ∈ gridZip f a b) (hv : v ∈ row) :
    ∃ x, (∃ ra ∈ a, x ∈ ra) ∧ ∃ y, (∃ rb ∈ b, y ∈ rb) ∧ v = f x y := by
  obtain ⟨ra, hra, rb, hrb, hrow2⟩ := exists_of_mem_zipWith hrow
  subst hrow2
  obtain ⟨x, hx, y, hy, hv2⟩ := exists_of_mem_zipWith hv
  exact ⟨x, ⟨ra, hra, hx⟩, y, ⟨rb, hrb, hy⟩, hv2⟩

theorem getD_map_pixel {f : F → F} (hf : f none = none) :
    ∀ (l : List F) (j : ℕ), (List.map f l).getD j none = f (l.getD j none)
  | [], j => by simp [hf]
  | x :: xs, 0 => by simp
  | x :: xs, j + 1 => by
    simpa using getD_map_pixel hf xs j

theorem getD_map_row (f : F → F) :
    ∀ (g : Grid) (i : ℕ), (g.map (List.map f)).getD i [] = List.map f (g.getD i [])
  | [], i => by simp
  | r0 :: rs, 0 => by simp
  | r0 :: rs, i + 1 => by
    simpa using getD_map_row f rs i

theorem cellAt_gridMap {f : F → F} (hf : f none = none) (g : Grid) (i j : ℕ) :
    cellAt (gridMap f g) i j = f (cellAt g i j) := by
  unfold cellAt gridMap
  rw [getD_map_row, getD_map_pixel hf]

theorem sentinelPixel_none : sentinelPixel none = none := by
  simp [sentinelPixel]

theorem sentinelPixel_ne_sentinel (v : F) : sentinelPixel v ≠ some (-9999) := by
  unfold sentinelPixel
  split
  · simp
  · assumption

theorem offset_stats_pixel_fst (r : Grid) (x y p : ℤ) (resolution : Option ℝ)
    (dt : Option ℤ) (tv : Bool) :
    (offset_stats_pixel r x y p resolution dt tv).1 = sentinelToNan r := by
  unfold offset_stats_pixel
  split <;> rfl

theorem offset_stats_aoi_fst (r mask : Grid) (resolution : Option ℝ)
    (dt : Option ℤ) (tv : Bool) :
    (offset_stats_aoi r mask resolution dt tv).1 = sentinelToNan r := by
  unfold offset_stats_aoi
  split
  · rfl
  · dsimp only
    split <;> (split <;> rfl)

theorem mem_of_mem_pySlice {α : Type} {l : List α} {a b : ℤ} {x : α}
    (h : x ∈ pySlice l a b) : x ∈ l :=
  List.mem_of_mem_take (List.mem_of_mem_drop h)

theorem mem_sentinelToNan_ne {r : Grid} {row : List F} {v : F}
    (hrow : row ∈ sentinelToNan r) (hv : v ∈ row) : v ≠ some (-9999) := by
  obtain ⟨w, _, hw⟩ := exists_of_mem_gridMap hrow hv
  rw [hw]
  exact sentinelPixel_ne_sentinel w

theorem validVals_cons_some (a : ℝ) (l : List F) :
    validVals (some a :: l) = a :: validVals l := by
  simp [validVals]

theorem validVals_nil : validVals [] = [] := rfl

theorem nanmean_single (a : ℝ) : nanmean [some a] = some a := by
  simp [nanmean, validVals]

theorem nanstd_single (a : ℝ) : nanstd [some a] = some 0 := by
  simp [nanstd, validVals]

theorem nanmean_pair (a b : ℝ) : nanmean [some a, some b] = some ((a + b) / 2) := by
  simp [nanmean, validVals]

theorem nanstd_pair (a b : ℝ) :
    nanstd [some a, some b]
      = some (Real.sqrt (((a - (a + b) / 2) ^ 2 + (b - (a + b) / 2) ^ 2) / 2)) := by
  simp only [nanstd, validVals, List.filterMap_cons, id, List.filterMap_nil,
    List.length_cons, List.length_nil, List.map_cons, List.map_nil, List.sum_cons,
    List.sum_nil]
  norm_num

theorem fadd_none_left (x : F) : fadd none x = none := by cases x <;> rfl

theorem fadd_none_right (x : F) : fadd x none = none := by cases x <;> rfl

theorem fmul_none_left (x : F) : fmul none x = none := by cases x <;> rfl

theorem fmul_none_right (x : F) : fmul x none = none := by cases x <;> rfl

theorem fdiv_none_left (x : F) : fdiv none x = none := by cases x <;> rfl

theorem fdiv_none_right (x : F) : fdiv x none = none := by cases x <;> rfl

theorem fsub_none_right (x : F) : fsub x none = none := by cases x <;> rfl

theorem fdiv_some_zero (a : ℝ) : fdiv (some a) (some 0) = none := by
  simp [fdiv]

/-- Any offset pair produces a NaN or nonnegative magnitude cell through the
calc_velocity chain sqrt, times resolution, over abs dt, times 365. -/
theorem magnitude_cells_nonneg (dx dy : Grid) (res : ℝ) (hres : 0 ≤ res)
    (dt : ℤ) (hdt : dt ≠ 0) :
    gridAll (fun v => v = none ∨ ∃ x, v = some x ∧ 0 ≤ x)
      (gridMap (fun x => fmul (fdiv x (some |(dt : ℝ)|)) (some 365))
        (gridMap (fun x => fmul x (some res))
          (gridZip (fun a b => fsqrt (fadd (fmul a a) (fmul b b))) dx dy))) := by
  have hdtR : |(dt : ℝ)| ≠ 0 := by
    simp only [ne_eq, abs_eq_zero, Int.cast_eq_zero]
    exact hdt
  intro row hrow v hv
  obtain ⟨w1, ⟨row1, hrow1, hw1⟩, hv1⟩ := exists_of_mem_gridMap hrow hv
  obtain ⟨w2, ⟨row2, hrow2, hw2⟩, hv2⟩ := exists_of_mem_gridMap hrow1 hw1
  obtain ⟨a, _, b, _, hv3⟩ := exists_of_mem_gridZip hrow2 hw2
  subst hv1 hv2 hv3
  rcases a with _ | va
  · left
    rw [fmul_none_left, fadd_none_left]
    rfl
  rcases b with _ | vb
  · left
    rw [fmul_none_left, fadd_none_right]
    rfl
  have hs : (0 : ℝ) ≤ va * va + vb * vb := by nlinarith [mul_self_nonneg va, mul_self_nonneg vb]
  right
  refine ⟨Real.sqrt (va * va + vb * vb) * res / |(dt : ℝ)| * 365, ?_, ?_⟩
  · rw [fmul_some_some, fmul_some_some, fadd_some_some, fsqrt_some _ hs,
      fmul_some_some, fdiv_some_some _ _ hdtR, fmul_some_some]
  · have h1 : 0 ≤ Real.sqrt (va * va + vb * vb) := Real.sqrt_nonneg _
    have h2 : 0 ≤ |(dt : ℝ)| := abs_nonneg _
    positivity

/-- Any offset pair produces a NaN or in-range bearing cell through
dirPixel: the arccos of the normalised dot product with north lies in
[0, 180], and the 360-degree flip applied where the x component is
negative lands in [180, 360). -/
theorem dirPixel_nan_or_range (a b : F) :
    dirPixel a b = none ∨ ∃ x, dirPixel a b = some x ∧ 0 ≤ x ∧ x < 360 := by
  have hpi : (0 : ℝ) < 180 / Real.pi := by positivity
  rcases a with _ | va
  · left
    simp only [dirPixel, fmul_none_left, fadd_none_left,
      show fsqrt none = none from rfl, fdiv_none_left, fdiv_none_right,
      fmul_none_right, fadd_none_right,
      show farccos none = none from rfl, rad2deg, fsub_none_right]
    rfl
  rcases b with _ | vb
  · left
    simp only [dirPixel, fmul_none_left, fadd_none_right,
      show fsqrt none = none from rfl, fdiv_none_left, fdiv_none_right,
      fmul_none_right, fadd_none_left,
      show farccos none = none from rfl, rad2deg, fsub_none_right]
    rfl
  have hs : (0 : ℝ) ≤ va * va + vb * vb := by
    nlinarith [mul_self_nonneg va, mul_self_nonneg vb]
  by_cases hn : Real.sqrt (va * va + vb * vb) = 0
  · left
    simp only [dirPixel, fmul_some_some, fadd_some_some, fsqrt_some _ hs, hn,
      fdiv_some_zero, fmul_none_right, fadd_none_left, fadd_none_right,
      show farccos none = none from rfl, rad2deg, fmul_none_left, fsub_none_right]
    rfl
  · have hnpos : 0 < Real.sqrt (va * va + vb * vb) :=
      lt_of_le_of_ne (Real.sqrt_nonneg _) (Ne.symm hn)
    have habs_vb : |vb| ≤ Real.sqrt (va * va + vb * vb) := by
      rw [← Real.sqrt_mul_self_eq_abs]
      exact Real.sqrt_le_sqrt (by nlinarith [mul_self_nonneg va])
    set t : ℝ := 0 * (va / Real.sqrt (va * va + vb * vb))
        + 1 * (vb / Real.sqrt (va * va + vb * vb)) with ht
    have ht_eq : t = vb / Real.sqrt (va * va + vb * vb) := by rw [ht]; ring
    have ht2 : t ≤ 1 := by
      rw [ht_eq, div_le_one hnpos]
      exact le_trans (le_abs_self vb) habs_vb
    have ht1 : -1 ≤ t := by
      rw [ht_eq, le_div_iff₀ hnpos]
      have := neg_abs_le vb
      nlinarith
    have hcond : ¬ (t < -1 ∨ 1 < t) := by
      push_neg
      exact ⟨ht1, ht2⟩
    have heval : dirPixel (some va) (some vb)
        = fabs (fsub (some (if isNeg (some va) then (360 : ℝ) else 0))
            (some (Real.arccos t * (180 / Real.pi)))) := by
      simp only [dirPixel, fmul_some_some, fadd_some_some, fsqrt_some _ hs,
        fdiv_some_some _ _ hn, fmul_some_some]
      rw [← ht]
      rw [show farccos (some t) = some (Real.arccos t) by
        simp only [farccos]; rw [if_neg hcond]]
      rfl
    have hdeg0 : 0 ≤ Real.arccos t * (180 / Real.pi) :=
      mul_nonneg (Real.arccos_nonneg t) hpi.le
    have hdeg180 : Real.arccos t * (180 / Real.pi) ≤ 180 := by
      have h1 : Real.arccos t * (180 / Real.pi) ≤ Real.pi * (180 / Real.pi) :=
        mul_le_mul_of_nonneg_right (Real.arccos_le_pi t) hpi.le
      have h2 : Real.pi * (180 / Real.pi) = 180 := by
        field_simp
      linarith
    by_cases hva : va < 0
    · have ht_lt1 : t < 1 := by
        rw [ht_eq, div_lt_one hnpos]
        have h1 : vb * vb < va * va + vb * vb := by
          nlinarith [mul_pos_of_neg_of_neg hva hva]
        calc vb ≤ |vb| := le_abs_self vb
          _ = Real.sqrt (vb * vb) := (Real.sqrt_mul_self_eq_abs vb).symm
          _ < Real.sqrt (va * va + vb * vb) :=
              Real.sqrt_lt_sqrt (mul_self_nonneg vb) h1
      have hdegpos : 0 < Real.arccos t * (180 / Real.pi) :=
        mul_pos (Real.arccos_pos.2 ht_lt1) hpi
      right
      refine ⟨360 - Real.arccos t * (180 / Real.pi), ?_, by linarith, by linarith⟩
      rw [heval, if_pos (show isNeg (some va) from hva), fsub_some_some]
      show some |360 - Real.arccos t * (180 / Real.pi)| = _
      rw [abs_of_nonneg (by linarith)]
    · right
      refine ⟨Real.arccos t * (180 / Real.pi), ?_, hdeg0, by linarith⟩
      rw [heval, if_neg (show ¬ isNeg (some va) from hva), fsub_some_some]
      show some |0 - Real.arccos t * (180 / Real.pi)| = _
      rw [show (0 : ℝ) - Real.arccos t * (180 / Real.pi)
            = -(Real.arccos t * (180 / Real.pi)) by ring,
        abs_neg, abs_of_nonneg hdeg0]

theorem direction_cells_range (dx dy : Grid) :
    gridAll (fun v => v = none ∨ ∃ x, v = some x ∧ 0 ≤ x ∧ x < 360)
      (gridZip dirPixel dx dy) := by
  intro row hrow v hv
  obtain ⟨a, _, b, _, hv2⟩ := exists_of_mem_gridZip hrow hv
  subst hv2
  exact dirPixel_nan_or_range a b

theorem sin_le_cubic_ub {x : ℝ} (h0 : 0 ≤ x) (h1 : x ≤ 1) :
    Real.sin x ≤ x - x ^ 3 / 6 + x ^ 4 * (5 / 96) := by
  have hb := Real.sin_bound (show |x| ≤ 1 by rw [abs_of_nonneg h0]; exact h1)
  rw [abs_of_nonneg h0] at hb
  have h := (abs_le.1 hb).2
  linarith

theorem sin_ge_cubic_lb {x : ℝ} (h0 : 0 ≤ x) (h1 : x ≤ 1) :
    x - x ^ 3 / 6 - x ^ 4 * (5 / 96) ≤ Real.sin x := by
  have hb := Real.sin_bound (show |x| ≤ 1 by rw [abs_of_nonneg h0]; exact h1)
  rw [abs_of_nonneg h0] at hb
  have h := (abs_le.1 hb).1
  linarith

theorem cos_eq_one_sub_two_sin_sq (y : ℝ) :
    Real.cos (2 * y) = 1 - 2 * Real.sin y ^ 2 := by
  have h := Real.sin_sq_add_cos_sq y
  rw [Real.cos_two_mul]
  linarith

theorem lt_arccos_of_cos_gt {t c : ℝ} (ht1 : -1 ≤ t) (ht2 : t ≤ 1)
    (hc0 : 0 ≤ c) (hcpi : c ≤ Real.pi) (h : t < Real.cos c) :
    c < Real.arccos t := by
  by_contra hle
  push_neg at hle
  have hmono := Real.strictAntiOn_cos.antitoneOn
    ⟨Real.arccos_nonneg t, Real.arccos_le_pi t⟩ ⟨hc0, hcpi⟩ hle
  rw [Real.cos_arccos ht1 ht2] at hmono
  linarith

theorem arccos_lt_of_cos_lt {t c : ℝ} (ht1 : -1 ≤ t) (ht2 : t ≤ 1)
    (hc0 : 0 ≤ c) (hcpi : c ≤ Real.pi) (h : Real.cos c < t) :
    Real.arccos t < c := by
  by_contra hle
  push_neg at hle
  have hmono := Real.strictAntiOn_cos.antitoneOn
    ⟨hc0, hcpi⟩ ⟨Real.arccos_nonneg t, Real.arccos_le_pi t⟩ hle
  rw [Real.cos_arccos ht1 ht2] at hmono
  linarith

/-- Numeric lower estimate: cos 0.6425 exceeds 4/5, via two half-angle
steps and the quartic Taylor bound on sin at 0.160625. -/
theorem cos_06425_gt : (4 / 5 : ℝ) < Real.cos (257 / 400) := by
  have hub := sin_le_cubic_ub (show (0:ℝ) ≤ 257/1600 by norm_num)
    (show (257/1600 : ℝ) ≤ 1 by norm_num)
  have hpos : 0 < Real.sin (257 / 1600) := by
    apply Real.sin_pos_of_pos_of_lt_pi (by norm_num)
    have h3 := Real.pi_gt_three
    linarith
  set s := Real.sin (257 / 1600) with hsdef
  have hsu : s ≤ 0.15997 := by
    refine hub.trans ?_
    norm_num
  have hcos2 : Real.cos (257 / 800) = 1 - 2 * s ^ 2 := by
    have h := cos_eq_one_sub_two_sin_sq (257 / 1600)
    rw [show (2 : ℝ) * (257 / 1600) = 257 / 800 by norm_num] at h
    exact h
  have hcos4 : Real.cos (257 / 400) = 2 * Real.cos (257 / 800) ^ 2 - 1 := by
    have h := Real.cos_two_mul (257 / 800)
    rw [show (2 : ℝ) * (257 / 800) = 257 / 400 by norm_num] at h
    exact h
  have hc2 : (0.948819 : ℝ) ≤ Real.cos (257 / 800) := by
    rw [hcos2]
    nlinarith [hpos, hsu]
  rw [hcos4]
  nlinarith [hc2, sq_nonneg (Real.cos (257 / 800) - 0.948819)]

/-- Numeric upper estimate: cos 0.644 falls below 4/5. -/
theorem cos_0644_lt : Real.cos (161 / 250) < (4 / 5 : ℝ) := by
  have hub := sin_le_cubic_ub (show (0:ℝ) ≤ 161/1000 by norm_num)
    (show (161/1000 : ℝ) ≤ 1 by norm_num)
  have hlb := sin_ge_cubic_lb (show (0:ℝ) ≤ 161/1000 by norm_num)
    (show (161/1000 : ℝ) ≤ 1 by norm_num)
  set s := Real.sin (161 / 1000) with hsdef
  have hsl : (0.1602694 : ℝ) ≤ s := le_trans (by norm_num) hlb
  have hsu : s ≤ 0.1603395 := hub.trans (by norm_num)
  have hcos2 : Real.cos (161 / 500) = 1 - 2 * s ^ 2 := by
    have h := cos_eq_one_sub_two_sin_sq (161 / 1000)
    rw [show (2 : ℝ) * (161 / 1000) = 161 / 500 by norm_num] at h
    exact h
  have hcos4 : Real.cos (161 / 250) = 2 * Real.cos (161 / 500) ^ 2 - 1 := by
    have h := Real.cos_two_mul (161 / 500)
    rw [show (2 : ℝ) * (161 / 500) = 161 / 250 by norm_num] at h
    exact h
  have hc2u : Real.cos (161 / 500) ≤ 0.9486276 := by
    rw [hcos2]
    nlinarith [hsl, hsu]
  have hc2l : (0 : ℝ) ≤ Real.cos (161 / 500) := by
    rw [hcos2]
    nlinarith [hsl, hsu]
  rw [hcos4]
  nlinarith [hc2u, hc2l]

theorem arccos_45_bounds :
    (257 / 400 : ℝ) < Real.arccos (4 / 5) ∧ Real.arccos (4 / 5) < 161 / 250 := by
  have hpi3 := Real.pi_gt_three
  constructor
  · exact lt_arccos_of_cos_gt (by norm_num) (by norm_num) (by norm_num)
      (by linarith) cos_06425_gt
  · exact arccos_lt_of_cos_lt (by norm_num) (by norm_num) (by norm_num)
      (by linarith) cos_0644_lt

/-- The bearing constant arccos(4/5) in degrees lies between 36.8 and
36.9 (its value is 36.8699...). -/
theorem arccos_45_deg_bounds :
    (36.8 : ℝ) < Real.arccos (4 / 5) * (180 / Real.pi) ∧
    Real.arccos (4 / 5) * (180 / Real.pi) < 36.9 := by
  have hpil := Real.pi_gt_d6
  have hpiu := Real.pi_lt_d6
  have hpipos := Real.pi_pos
  obtain ⟨hl, hu⟩ := arccos_45_bounds
  have hfl : (257 / 400 : ℝ) * (180 / Real.pi)
      < Real.arccos (4 / 5) * (180 / Real.pi) :=
    mul_lt_mul_of_pos_right hl (by positivity)
  have hfu : Real.arccos (4 / 5) * (180 / Real.pi)
      < (161 / 250 : ℝ) * (180 / Real.pi) :=
    mul_lt_mul_of_pos_right hu (by positivity)
  constructor
  · have h1 : (36.8 : ℝ) < (257 / 400) * (180 / Real.pi) := by
      rw [show (257 / 400 : ℝ) * (180 / Real.pi) = (257 * 180 / 400) / Real.pi by
        ring]
      rw [lt_div_iff₀ hpipos]
      nlinarith
    linarith
  · have h1 : (161 / 250 : ℝ) * (180 / Real.pi) < 36.9 := by
      rw [show (161 / 250 : ℝ) * (180 / Real.pi) = (161 * 180 / 250) / Real.pi by
        ring]
      rw [div_lt_iff₀ hpipos]
      nlinarith
    linarith

theorem one_sub_half_sq_le_cos {y : ℝ} (h0 : 0 ≤ y) (hpi : y ≤ Real.pi) :
    1 - y ^ 2 / 2 ≤ Real.cos y := by
  have hhalf0 : 0 ≤ y / 2 := by linarith
  have hhalfpi : y / 2 ≤ Real.pi := by linarith [Real.pi_pos]
  have hsin_le : Real.sin (y / 2) ≤ y / 2 := by
    rcases eq_or_lt_of_le hhalf0 with h | h
    · rw [← h]
      simp
    · exact (Real.sin_lt h).le
  have hsin_nonneg : 0 ≤ Real.sin (y / 2) :=
    Real.sin_nonneg_of_nonneg_of_le_pi hhalf0 hhalfpi
  have hcos : Real.cos y = 1 - 2 * Real.sin (y / 2) ^ 2 := by
    have h := cos_eq_one_sub_two_sin_sq (y / 2)
    rw [show 2 * (y / 2) = y by ring] at h
    exact h
  rw [hcos]
  nlinarith [hsin_le, hsin_nonneg]

theorem arctan_lt_self_of_pos {t : ℝ} (ht : 0 < t) : Real.arctan t < t := by
  have h1 : 0 < Real.arctan t := by
    have h := Real.arctan_strictMono ht
    rwa [Real.arctan_zero] at h
  have h2 := Real.lt_tan h1 (Real.arctan_lt_pi_div_two t)
  rwa [Real.tan_arctan] at h2

theorem gridAll_replicate (c : F) (n m : ℕ) :
    gridAll (fun v => v = c) (List.replicate n (List.replicate m c)) := by
  intro row hrow v hv
  rw [List.eq_of_mem_replicate hrow] at hv
  exact List.eq_of_mem_replicate hv

/-! Claim theorems. -/

/-- Claim C3: the specification demands that calc_velocity reject a zero
temporal baseline with a domain error.  The source performs no such check:
with dt.days = 0 it divides by abs(dt.days) = 0 and returns normally, every
magnitude pixel being the non-finite result of that division (inf or NaN,
modelled as `none`) — here evaluated on a 1-pixel raster with dx = 3,
dy = 4, resolution 3. -/
theorem calc_velocity_zero_dt_returns_nonfinite :
    (calc_velocity ⟨[[some 3]], [[some 4]], none, 3⟩ 0 none false).1 = [[none]] := by
  unfold calc_velocity
  norm_num [effective_res, gridZip, gridMap, fmul, fadd, fsqrt, fdiv]

/-- Claim C4: in the dx/dy branch of stack_rasters the validity-band mask is
computed (line 435) but the very next statement `masked = array_list[i]`
(line 437) overwrites it unconditionally, so a pixel with validity 0 and
dx = 3 still contributes `((3*2)/10)*365 = 219` to the stack instead of
NaN.  The second conjunct shows the discarded line-435 value was indeed the
masked-out pixel. -/
theorem stack_rasters_dx_discards_validity_mask :
    stack_rasters_dx [⟨true, [[some 3]], [[some 0]], some [[some 0]], 10, 2⟩] false
      = some ⟨true, [[some 219]], [[some 0]]⟩ ∧
    np_where_eq_one [[some 0]] [[some 3]] = [[none]] := by
  constructor
  · unfold stack_rasters_dx stack_loop_body
    norm_num [bands_count, List.filter, np_where_eq_one, gridZip, gridMap,
      annualize, fmul, fdiv, List.range_succ, gridStack, stackCell, cellAt,
      ma_average_cell, ma_std_cell, nanmean_single, nanstd_single]
  · norm_num [np_where_eq_one, gridZip]

/-- Claim C5 counterexample: stack_rasters performs no sentinel conversion,
so a pixel holding the no-data value -9999 participates in the stacked
mean: stacking the 1-pixel velocity bands [-9999] and [1] yields the mean
-4999 and standard deviation 5000, while the mean with the sentinel
converted to NaN first (the claim's expectation) would be 1. -/
theorem stack_rasters_velocity_sentinel_participates :
    stack_rasters_velocity
        [⟨true, [[some (-9999)]], [[some 0]]⟩, ⟨true, [[some 1]], [[some 0]]⟩]
      = some ⟨true, [[some (-4999)]], [[some 5000]]⟩ ∧
    nanmean [sentinelPixel (some (-9999)), sentinelPixel (some 1)] = some 1 ∧
    (some (-4999) : F) ≠ some 1 := by
  refine ⟨?_, ?_, by norm_num⟩
  · unfold stack_rasters_velocity
    have hstd : nanstd [some (-9999), some 1] = some 5000 := by
      rw [nanstd_pair]
      rw [show ((((-9999 : ℝ) - (-9999 + 1) / 2) ^ 2 + (1 - (-9999 + 1) / 2) ^ 2) / 2)
            = 5000 ^ 2 by norm_num]
      rw [Real.sqrt_sq (by norm_num)]
    norm_num [List.filter, ma_masked_invalid, gridStack, List.range_succ,
      stackCell, cellAt, ma_average_cell, ma_std_cell, nanmean_pair, hstd]
  · rw [show sentinelPixel (some (-9999)) = none by simp [sentinelPixel],
       show sentinelPixel (some 1) = some 1 by norm_num [sentinelPixel]]
    simp [nanmean, validVals]

/-- Claim C5 amended: offset_stats_pixel and offset_stats_aoi do convert the
-9999 sentinel to NaN before computing statistics — the sample each of them
draws from the converted raster never contains the sentinel value (count
zero); stack_rasters performs no such conversion (see the counterexample). -/
theorem offset_stats_sentinel_excluded (r : Grid) (x y p : ℤ) (mask : Grid) :
    (pixel_sample (sentinelToNan r) x y p).flatten.count (some (-9999)) = 0 ∧
    (aoi_sample (sentinelToNan r) mask).count (some (-9999)) = 0 := by
  constructor
  · rw [List.count_eq_zero]
    intro hmem
    obtain ⟨row, hrow, hv⟩ := List.mem_flatten.1 hmem
    obtain ⟨row0, hrow0, hrow2⟩ := List.mem_map.1 hrow
    subst hrow2
    exact mem_sentinelToNan_ne (mem_of_mem_pySlice hrow0)
      (mem_of_mem_pySlice hv) rfl
  · rw [List.count_eq_zero]
    intro hmem
    obtain ⟨row, hrow, hv⟩ := List.mem_flatten.1 hmem
    obtain ⟨rrow, hrrow, mrow, _, hrow2⟩ := exists_of_mem_zipWith hrow
    subst hrow2
    obtain ⟨pr, hpr, hpick⟩ := List.mem_filterMap.1 hv
    have hp1 : pr.1 ∈ rrow := (List.of_mem_zip hpr).1
    rcases Classical.em (pr.2 = some 1) with h2 | h2
    · rw [if_pos h2] at hpick
      have : pr.1 = some (-9999) := Option.some.inj hpick
      exact mem_sentinelToNan_ne hrrow hp1 (by rw [← this])
    · rw [if_neg h2] at hpick
      exact Option.noConfusion hpick

/-- Claim C7: when the raster and mask shapes differ, offset_stats_aoi
reports the problem without raising, but the caller receives the 4-tuple
`np.nan, np.nan, np.nan, np.nan` of source line 177 — four values, not the
five-statistic all-NaN StatSummary the specification promises (the 5-way
unpacking at its call site would then fail). -/
theorem offset_stats_aoi_shape_mismatch_four_values :
    (offset_stats_aoi [[some 1]] [[some 1], [some 1]] none none true).2
      = some [none, none, none, none] ∧
    ([none, none, none, none] : List F).length ≠ 5 := by
  constructor
  · unfold offset_stats_aoi
    norm_num [sentinelToNan, gridMap, sentinelPixel, gridShape]
  · simp

/-- Claim C8 counterexample: the temporal filter of get_stats_in_aoi keeps a
record with dt = -100 days under max_dt = 50 because the source compares
the signed dt (line 248), although the absolute baseline 100 exceeds 50. -/
theorem get_stats_filter_dt_keeps_negative_dt :
    get_stats_filter_dt [⟨-100⟩] (some 50) = [⟨-100⟩] ∧ ¬ (|(-100 : ℤ)| ≤ 50) := by
  constructor
  · simp [get_stats_filter_dt]
  · decide

/-- Claim C8 amended: with max_dt supplied, get_stats_in_aoi retains exactly
the records whose signed temporal baseline satisfies dt ≤ max_dt; no
absolute value is taken, so arbitrarily large negative baselines survive
the filter. -/
theorem get_stats_filter_dt_signed (df : List MatchRec) (m : ℤ) (row : MatchRec) :
    row ∈ get_stats_filter_dt df (some m) ↔ row ∈ df ∧ row.dtDays ≤ m := by
  simp [get_stats_filter_dt, List.mem_filter]

/-- Claim C9: with no existing input raster, stack_rasters does not fail
with a "no input rasters found" error: the reduction runs over the empty
stack, the save loop (lines 455-462) writes nothing, and the composite
path is still returned normally (line 463) — modelled by the `some` result
with `written = false`. -/
theorem stack_rasters_velocity_empty_stack_returns :
    stack_rasters_velocity [⟨false, [[some 1]], [[some 2]]⟩]
      = some ⟨false, [], []⟩ := by
  unfold stack_rasters_velocity
  norm_num [List.filter, gridStack]

/-- Claim C10 counterexample: offset_stats_pixel and offset_stats_aoi
overwrite the caller's buffer in place — line 145/164 `r[r == -9999] =
np.nan` turns the sentinel pixel of the passed array into NaN, so the
buffer after the call differs from the buffer passed in. -/
theorem offset_stats_mutate_callers_buffer :
    (offset_stats_pixel [[some (-9999)]] 0 0 0 none none true).1 = [[none]] ∧
    ([[none]] : Grid) ≠ [[some (-9999)]] ∧
    (offset_stats_aoi [[some (-9999)]] [[some 1]] none none true).1 = [[none]] := by
  refine ⟨?_, by simp, ?_⟩
  · rw [offset_stats_pixel_fst]
    simp [sentinelToNan, gridMap, sentinelPixel]
  · rw [offset_stats_aoi_fst]
    simp [sentinelToNan, gridMap, sentinelPixel]

/-- Claim C10 amended: the statistics functions mutate the caller's array
exactly at the sentinel pixels — after either call the buffer holds NaN
where the input held -9999 and the unchanged input value everywhere else
(the later unit-conversion rebinds a fresh array and does not touch the
caller's buffer). -/
theorem offset_stats_buffer_after_call (r : Grid) (x y p : ℤ)
    (resolution : Option ℝ) (dt : Option ℤ) (tv : Bool) (mask : Grid) (i j : ℕ) :
    cellAt (offset_stats_pixel r x y p resolution dt tv).1 i j
        = (if cellAt r i j = some (-9999) then none else cellAt r i j) ∧
    cellAt (offset_stats_aoi r mask resolution dt tv).1 i j
        = (if cellAt r i j = some (-9999) then none else cellAt r i j) := by
  constructor
  · rw [offset_stats_pixel_fst]
    exact cellAt_gridMap sentinelPixel_none r i j
  · rw [offset_stats_aoi_fst]
    exact cellAt_gridMap sentinelPixel_none r i j

/-- Claim C2: for every offset raster, every optional resolution override
(nonnegative, as for any georeferenced raster), every median-shift flag and
every temporal baseline with a nonzero day count, each magnitude pixel
returned by calc_velocity is NaN or nonnegative, and each bearing pixel is
NaN or lies in the half-open interval [0, 360). -/
theorem calc_velocity_magnitude_bearing_range (r : OffsetRaster) (dtDays : ℤ)
    (fixed_res : Option ℝ) (medShift : Bool) (hdt : dtDays ≠ 0)
    (hres : 0 ≤ effective_res fixed_res r.res) :
    gridAll (fun v => v = none ∨ ∃ x, v = some x ∧ 0 ≤ x)
      (calc_velocity r dtDays fixed_res medShift).1 ∧
    gridAll (fun v => v = none ∨ ∃ x, v = some x ∧ 0 ≤ x ∧ x < 360)
      (calc_velocity r dtDays fixed_res medShift).2 := by
  unfold calc_velocity
  exact ⟨magnitude_cells_nonneg _ _ _ hres _ hdt, direction_cells_range _ _⟩

/-- Claim C2 witness: the range theorem instantiated on a concrete 1-pixel
raster with dx = 3, dy = 4, metadata resolution 3 and dt = 30 days. -/
theorem calc_velocity_magnitude_bearing_range_witness :
    (30 : ℤ) ≠ 0 ∧
    0 ≤ effective_res none (OffsetRaster.mk [[some 3]] [[some 4]] none 3).res ∧
    (gridAll (fun v => v = none ∨ ∃ x, v = some x ∧ 0 ≤ x)
        (calc_velocity (OffsetRaster.mk [[some 3]] [[some 4]] none 3) 30 none false).1 ∧
     gridAll (fun v => v = none ∨ ∃ x, v = some x ∧ 0 ≤ x ∧ x < 360)
        (calc_velocity (OffsetRaster.mk [[some 3]] [[some 4]] none 3) 30 none false).2) :=
  ⟨by decide, by norm_num [effective_res],
    calc_velocity_magnitude_bearing_range (OffsetRaster.mk [[some 3]] [[some 4]] none 3)
      30 none false (by decide) (by norm_num [effective_res])⟩

/-- Evaluation of the bearing of the constant offset vector (3, 4): the
normalised dot product with north is 4/5 and the x component is positive,
so the bearing is arccos(4/5) in degrees. -/
theorem dirPixel_3_4 :
    dirPixel (some 3) (some 4) = some (Real.arccos (4 / 5) * (180 / Real.pi)) := by
  have h25 : Real.sqrt (3 * 3 + 4 * 4 : ℝ) = 5 := by
    rw [show (3 * 3 + 4 * 4 : ℝ) = 5 ^ 2 by norm_num]
    exact Real.sqrt_sq (by norm_num)
  simp only [dirPixel, fmul_some_some, fadd_some_some]
  rw [fsqrt_some _ (by norm_num), h25]
  rw [fdiv_some_some 3 5 (by norm_num), fdiv_some_some 4 5 (by norm_num)]
  simp only [fmul_some_some, fadd_some_some]
  rw [show (0 * (3 / 5) + 1 * (4 / 5) : ℝ) = 4 / 5 by norm_num]
  rw [show farccos (some (4 / 5 : ℝ)) = some (Real.arccos (4 / 5)) by
    simp only [farccos]
    rw [if_neg (by norm_num)]]
  rw [if_neg (show ¬ isNeg (some (3 : ℝ)) by norm_num [isNeg])]
  rw [show rad2deg (some (Real.arccos (4 / 5)))
      = some (Real.arccos (4 / 5) * (180 / Real.pi)) from rfl]
  rw [fsub_some_some]
  show some |0 - Real.arccos (4 / 5) * (180 / Real.pi)| = _
  rw [show (0 : ℝ) - Real.arccos (4 / 5) * (180 / Real.pi)
      = -(Real.arccos (4 / 5) * (180 / Real.pi)) by ring, abs_neg,
    abs_of_nonneg (mul_nonneg (Real.arccos_nonneg _) (by positivity))]

/-- Claim C1: on any 2-band raster whose x band is 3 everywhere and whose
y band is 4 everywhere, with metadata resolution 3 and dt = 30 days,
calc_velocity yields sqrt(3²+4²)·3/30·365 = 182.5 at every magnitude pixel
and arccos(4/5) in degrees (a constant strictly between 36.8 and 36.9,
that is ≈ 36.87, with no 360-degree correction since x = 3 > 0) at every
bearing pixel. -/
theorem calc_velocity_uniform_offset (r : OffsetRaster)
    (hdx : gridAll (fun v => v = some 3) r.dx)
    (hdy : gridAll (fun v => v = some 4) r.dy)
    (hvalid : r.valid = none) (hres : r.res = 3) :
    gridAll (fun v => v = some 182.5) (calc_velocity r 30 none false).1 ∧
    gridAll (fun v => v = some (Real.arccos (4 / 5) * (180 / Real.pi)))
      (calc_velocity r 30 none false).2 ∧
    (36.8 : ℝ) < Real.arccos (4 / 5) * (180 / Real.pi) ∧
    Real.arccos (4 / 5) * (180 / Real.pi) < 36.9 := by
  have key : calc_velocity r 30 none false
      = (gridMap (fun x => fmul (fdiv x (some |((30 : ℤ) : ℝ)|)) (some 365))
          (gridMap (fun x => fmul x (some (3 : ℝ)))
            (gridZip (fun a b => fsqrt (fadd (fmul a a) (fmul b b))) r.dx r.dy)),
         gridZip dirPixel r.dx r.dy) := by
    unfold calc_velocity
    rw [hvalid]
    norm_num [effective_res, hres]
  have h25 : Real.sqrt (3 * 3 + 4 * 4 : ℝ) = 5 := by
    rw [show (3 * 3 + 4 * 4 : ℝ) = 5 ^ 2 by norm_num]
    exact Real.sqrt_sq (by norm_num)
  refine ⟨?_, ?_, arccos_45_deg_bounds.1, arccos_45_deg_bounds.2⟩
  · rw [key]
    intro row hrow v hv
    obtain ⟨w1, ⟨row1, hrow1, hw1⟩, hv1⟩ := exists_of_mem_gridMap hrow hv
    obtain ⟨w2, ⟨row2, hrow2, hw2⟩, hv2⟩ := exists_of_mem_gridMap hrow1 hw1
    obtain ⟨a, ⟨ra, hra, ha⟩, b, ⟨rb, hrb, hb⟩, hv3⟩ := exists_of_mem_gridZip hrow2 hw2
    rw [hdx ra hra a ha, hdy rb hrb b hb] at hv3
    subst hv1 hv2 hv3
    rw [fmul_some_some, fmul_some_some, fadd_some_some, fsqrt_some _ (by norm_num),
      h25, fmul_some_some, fdiv_some_some _ _ (by norm_num), fmul_some_some]
    norm_num
  · rw [key]
    intro row hrow v hv
    obtain ⟨a, ⟨ra, hra, ha⟩, b, ⟨rb, hrb, hb⟩, hv3⟩ := exists_of_mem_gridZip hrow hv
    rw [hdx ra hra a ha, hdy rb hrb b hb] at hv3
    subst hv3
    exact dirPixel_3_4

/-- Claim C1 witness: the uniform-offset theorem applied to the concrete
10 by 10 raster of the specification scenario. -/
theorem calc_velocity_uniform_offset_witness :
    gridAll (fun v => v = some 3)
      (List.replicate 10 (List.replicate 10 (some (3 : ℝ)))) ∧
    gridAll (fun v => v = some 4)
      (List.replicate 10 (List.replicate 10 (some (4 : ℝ)))) ∧
    (gridAll (fun v => v = some 182.5)
        (calc_velocity
          (OffsetRaster.mk (List.replicate 10 (List.replicate 10 (some 3)))
            (List.replicate 10 (List.replicate 10 (some 4))) none 3)
          30 none false).1 ∧
      gridAll (fun v => v = some (Real.arccos (4 / 5) * (180 / Real.pi)))
        (calc_velocity
          (OffsetRaster.mk (List.replicate 10 (List.replicate 10 (some 3)))
            (List.replicate 10 (List.replicate 10 (some 4))) none 3)
          30 none false).2 ∧
      (36.8 : ℝ) < Real.arccos (4 / 5) * (180 / Real.pi) ∧
      Real.arccos (4 / 5) * (180 / Real.pi) < 36.9) :=
  ⟨gridAll_replicate (some 3) 10 10, gridAll_replicate (some 4) 10 10,
    calc_velocity_uniform_offset
      (OffsetRaster.mk (List.replicate 10 (List.replicate 10 (some 3)))
        (List.replicate 10 (List.replicate 10 (some 4))) none 3)
      (gridAll_replicate (some 3) 10 10) (gridAll_replicate (some 4) 10 10)
      rfl rfl⟩

/-- Claim C6: stacking four same-shape direction rasters holding the
bearings 10, 20, 350 and 0 degrees at a pixel with what = direction
(degrees to radians, NaN-aware circular mean, back to degrees) produces a
composite mean below 6 degrees at that pixel — near 0 — whereas the linear
reduction used for the non-angular quantities gives exactly 95 degrees on
the same four values. -/
theorem stack_rasters_direction_wraparound :
    ∃ θ : ℝ,
      Option.map StackRes.average_vals
          (stack_rasters_direction
            [⟨true, [[some 1]], [[some 10]]⟩, ⟨true, [[some 1]], [[some 20]]⟩,
             ⟨true, [[some 1]], [[some 350]]⟩, ⟨true, [[some 1]], [[some 0]]⟩])
        = some [[some θ]] ∧
      0 ≤ θ ∧ θ < 6 ∧
      ma_average_cell [some 10, some 20, some 350, some 0] = some 95 := by
  have hpil := Real.pi_gt_d6
  have hpiu := Real.pi_lt_d6
  have hpipos := Real.pi_pos
  have hpisq : Real.pi ^ 2 < 9.8696066 := by nlinarith [hpiu, hpipos]
  have h350s : Real.sin (350 * (Real.pi / 180)) = - Real.sin (10 * (Real.pi / 180)) := by
    rw [show (350 : ℝ) * (Real.pi / 180) = -(10 * (Real.pi / 180)) + 2 * Real.pi by
      ring, Real.sin_add_two_pi, Real.sin_neg]
  have h350c : Real.cos (350 * (Real.pi / 180)) = Real.cos (10 * (Real.pi / 180)) := by
    rw [show (350 : ℝ) * (Real.pi / 180) = -(10 * (Real.pi / 180)) + 2 * Real.pi by
      ring, Real.cos_add_two_pi, Real.cos_neg]
  set S := Real.sin (20 * (Real.pi / 180)) with hSdef
  set Cc := 2 * Real.cos (10 * (Real.pi / 180)) + Real.cos (20 * (Real.pi / 180)) + 1
    with hCdef
  have hS_pos : 0 < S := by
    rw [hSdef]
    exact Real.sin_pos_of_pos_of_lt_pi (by positivity) (by nlinarith)
  have hS_ub : S < 0.34907 := by
    have h := Real.sin_lt (show (0:ℝ) < 20 * (Real.pi / 180) by positivity)
    rw [hSdef]
    nlinarith
  have hc10 : (0.98476 : ℝ) ≤ Real.cos (10 * (Real.pi / 180)) := by
    have h := one_sub_half_sq_le_cos (show (0:ℝ) ≤ 10 * (Real.pi / 180) by positivity)
      (show 10 * (Real.pi / 180) ≤ Real.pi by nlinarith)
    nlinarith
  have hc20 : (0.93907 : ℝ) ≤ Real.cos (20 * (Real.pi / 180)) := by
    have h := one_sub_half_sq_le_cos (show (0:ℝ) ≤ 20 * (Real.pi / 180) by positivity)
      (show 20 * (Real.pi / 180) ≤ Real.pi by nlinarith)
    nlinarith
  have hC_lb : (3.908 : ℝ) ≤ Cc := by
    rw [hCdef]
    linarith
  have hC_pos : (0 : ℝ) < Cc := lt_of_lt_of_le (by norm_num) hC_lb
  have hdiv_pos : 0 < S / Cc := div_pos hS_pos hC_pos
  have harc_pos : 0 < Real.arctan (S / Cc) := by
    have h := Real.arctan_strictMono hdiv_pos
    rwa [Real.arctan_zero] at h
  have harc_lt : Real.arctan (S / Cc) < 0.0894 := by
    have h1 := arctan_lt_self_of_pos hdiv_pos
    have h2 : S / Cc < 0.0894 := by
      rw [div_lt_iff₀ hC_pos]
      nlinarith
    linarith
  have hdeg_pos : (0 : ℝ) < 180 / Real.pi := by positivity
  have hθ_lt : Real.arctan (S / Cc) * (180 / Real.pi) < 6 := by
    have h1 : Real.arctan (S / Cc) * (180 / Real.pi) < 0.0894 * (180 / Real.pi) :=
      mul_lt_mul_of_pos_right harc_lt hdeg_pos
    have h2 : (0.0894 : ℝ) * (180 / Real.pi) < 6 := by
      rw [show (0.0894 : ℝ) * (180 / Real.pi) = 0.0894 * 180 / Real.pi by ring,
        div_lt_iff₀ hpipos]
      nlinarith
    linarith
  have hSsum : (([10 * (Real.pi / 180), 20 * (Real.pi / 180), 350 * (Real.pi / 180),
      0] : List ℝ).map Real.sin).sum = S := by
    simp only [List.map_cons, List.map_nil, List.sum_cons, List.sum_nil]
    rw [h350s, Real.sin_zero, hSdef]
    ring
  have hCsum : (([10 * (Real.pi / 180), 20 * (Real.pi / 180), 350 * (Real.pi / 180),
      0] : List ℝ).map Real.cos).sum = Cc := by
    simp only [List.map_cons, List.map_nil, List.sum_cons, List.sum_nil]
    rw [h350c, Real.cos_zero, hCdef]
    ring
  have hcm : circmean_cell [some (10 * (Real.pi / 180)), some (20 * (Real.pi / 180)),
      some (350 * (Real.pi / 180)), some 0]
      = some (Real.arctan (S / Cc)) := by
    simp only [circmean_cell, validVals, List.filterMap_cons, id, List.filterMap_nil,
      List.length_cons, List.length_nil]
    rw [if_neg (by norm_num)]
    rw [hSsum, hCsum]
    rw [show arctan2 S Cc = Real.arctan (S / Cc) by
      unfold arctan2
      rw [if_pos hC_pos]]
    rw [if_neg (not_lt.2 harc_pos.le)]
  refine ⟨Real.arctan (S / Cc) * (180 / Real.pi), ?_,
    (mul_pos harc_pos hdeg_pos).le, hθ_lt, ?_⟩
  · unfold stack_rasters_direction
    simp only [List.filter, List.map_cons, List.map_nil, gridMap, deg2rad,
      fmul_some_some, Option.map_some]
    simp only [gridStack, List.range_succ, List.range_zero, List.nil_append,
      List.map_cons, List.map_nil, List.getD_cons_zero, List.length_cons,
      List.length_nil, stackCell, cellAt]
    rw [show (some ((0 : ℝ) * (Real.pi / 180)) : F) = some 0 by norm_num]
    rw [hcm, rad2deg, fmul_some_some]
    rfl
  · norm_num [ma_average_cell, nanmean, validVals, List.filterMap_cons,
      List.filterMap_nil]

end
